import Mathlib

/-!
Shallow embedding of the `repository` package of common-repository-sdk
(src/repository/query.go and src/repository/repository.go).

The dynamic filter-to-query compiler is embedded as pure Lean functions:
the mutable `*gorm.DB` builder is modelled as an explicit list of emitted
clauses (`List Clause`), and the in-place mutation of the `Filter` struct
(pointer receiver methods) is modelled by returning the updated `Filter`.
Go `for ... range` loops over slices/maps become structural recursion over
lists; Go maps (`map[string]interface{}`) become association lists, whose
order stands for Go's iteration order.

External collaborators that are not part of this repository are parameters:
  * `encoding/json` unmarshalling into `map[string]interface{}` is a
    parameter `parse : String → Option (List (String × GoVal))` (`none`
    models both invalid JSON and JSON whose top level is not an object);
  * gorm's dry-run SQL renderer (`ToSQL`) is a parameter
    `toSQL : List Clause → String`;
  * the storage engine executing count/find/update/delete is a `Store`
    record (for listings) or per-operation response functions (for the
    by-id CRUD wrappers), and the queries the code issues against it are
    recorded in an explicit `StorageOp` call log.
-/

namespace CommonRepositorySdk

/-- Go runtime values as they can appear in a `Filter`'s condition maps
(`Filters map[string]interface{}`) or in a parsed dynamic query.  The
constructors mirror the cases of the type switches in
`applyQueryConditions` (string, int, float64, bool, []interface{},
[]string, map[string]interface{}); `null` is the nil interface and
`other` stands for any Go value of a type matched by none of the cases.
The float64 payload is modelled by an integer, since no claim depends on
fractional values. -/
inductive GoVal where
  | str (s : String)
  | int (n : Int)
  | num (n : Int)
  | bool (b : Bool)
  | arr (xs : List GoVal)
  | strArr (xs : List String)
  | map (m : List (String × GoVal))
  | null
  | other

mutual

/-- Rendering of a Go value by fmt's %v verb, used by `recordSQL` and by
the `like` operator's operand coercion (`fmt.Sprintf("%v", value)`).
Nested maps are rendered in association-list order. -/
def govFmt : GoVal → String
  | .str s => s
  | .int n => toString n
  | .num n => toString n
  | .bool b => if b then "true" else "false"
  | .arr xs => "[" ++ govFmtList xs ++ "]"
  | .strArr xs => "[" ++ String.intercalate " " xs ++ "]"
  | .map m => "map[" ++ govFmtPairs m ++ "]"
  | .null => "<nil>"
  | .other => "<opaque>"

/-- Space-separated rendering of a list of Go values. -/
def govFmtList : List GoVal → String
  | [] => ""
  | [x] => govFmt x
  | x :: xs => govFmt x ++ " " ++ govFmtList xs

/-- Space-separated rendering of key:value pairs. -/
def govFmtPairs : List (String × GoVal) → String
  | [] => ""
  | [(k, v)] => k ++ ":" ++ govFmt v
  | (k, v) :: xs => k ++ ":" ++ govFmt v ++ " " ++ govFmtPairs xs

end

/-- Rendering of an `interface{}` argument that may be Go `nil`. -/
def govFmtOpt : Option GoVal → String
  | none => "<nil>"
  | some v => govFmt v

/-- One atomic fragment of the compiled query plan: the clauses the
compiler pushes into the `*gorm.DB` builder (`Unscoped`, `Joins`,
`Where`, `Order`, `Offset`, `Limit`). -/
inductive Clause where
  | unscoped
  | join (sql : String)
  | cond (sql : String) (args : List GoVal)
  | order (sql : String)
  | offset (n : Int)
  | limit (n : Int)

/-- Pipeline group of a clause: unscoped widening, joins, predicates,
order keys, offset, limit — in the fixed order the compiler emits them. -/
def Clause.group : Clause → Nat
  | .unscoped => 0
  | .join _ => 1
  | .cond _ _ => 2
  | .order _ => 3
  | .offset _ => 4
  | .limit _ => 5

/-- Whether a clause is a row limit. -/
def Clause.isLimit : Clause → Bool
  | .limit _ => true
  | _ => false

/-- JoinConfig — JOIN 配置结构 (query.go). -/
structure JoinConfig where
  Table : String
  On : String
  JoinType : String

/-- Filter — 筛选结构体 (query.go).  `Page`/`PageSize` are Go `int`,
modelled as `Int`; `sqlRecords` holds the formatted debug lines exactly as
`recordSQL` builds them. -/
structure Filter where
  Filterable : List String
  QueryStr : String
  Filters : List (String × GoVal)
  Sortable : List String
  «Sort» : String
  Page : Int
  PageSize : Int
  Unscoped : Bool
  Joins : List JoinConfig
  sqlRecords : List String
  Debug : Bool
  finalSQL : String

/-- The zero value of `Filter`, as a Go caller gets it from `Filter{}`. -/
def emptyFilter : Filter :=
  { Filterable := [], QueryStr := "", Filters := [], Sortable := [], «Sort» := ""
    Page := 0, PageSize := 0, Unscoped := false, Joins := [], sqlRecords := []
    Debug := false, finalSQL := "" }

/-- recordSQL — 记录调试 SQL (query.go). -/
def Filter.recordSQL (f : Filter) (desc : String) (val : Option GoVal) : Filter :=
  if !f.Debug then f
  else { f with sqlRecords := f.sqlRecords ++ ["[" ++ desc ++ "] | args: " ++ govFmtOpt val] }

/-- Body of `isFilterable` (query.go), over the `Filterable` list: an
empty allow-list accepts every field, otherwise a linear scan for an
exact match. -/
def isFilterableL (filterable : List String) (field : String) : Bool :=
  if filterable.length = 0 then true
  else filterable.contains field

/-- isFilterable (query.go). -/
def Filter.isFilterable (f : Filter) (field : String) : Bool :=
  isFilterableL f.Filterable field

/-- Go strings.TrimSpace, implemented structurally over the character
list (so that the kernel can evaluate it on concrete strings): drop
whitespace from both ends. -/
def trimSpace (s : String) : String :=
  String.mk (((s.data.dropWhile Char.isWhitespace).reverse.dropWhile Char.isWhitespace).reverse)

/-- Go strings.HasPrefix(s, "-"). -/
def hasDash (s : String) : Bool :=
  match s.data with
  | [] => false
  | c :: _ => c = '-'

/-- Go strings.TrimPrefix(s, "-"): strip one leading "-" when present. -/
def trimDash (s : String) : String :=
  if hasDash s then String.mk s.data.tail else s

/-- Go strings.Split(s, ",") over the character list, structurally
recursive so that the kernel can evaluate it. -/
def splitCommaChars : List Char → List (List Char)
  | [] => [[]]
  | c :: rest =>
      let r := splitCommaChars rest
      if c = ',' then [] :: r
      else
        match r with
        | [] => [[c]]
        | h :: t => (c :: h) :: t

/-- Go strings.Split(s, ","). -/
def splitComma (s : String) : List String :=
  (splitCommaChars s.data).map String.mk

/-- Body of `isSortable` (query.go), over the `Sortable` list:
whitespace-only fields never sort; `id`, `created_at`, `updated_at`
always sort; otherwise the allow-list must be non-empty and contain the
field. -/
def isSortableL (sortable : List String) (field : String) : Bool :=
  if trimSpace field = "" then false
  else if field = "id" || field = "created_at" || field = "updated_at" then true
  else if sortable.length = 0 then false
  else sortable.contains field

/-- isSortable (query.go). -/
def Filter.isSortable (f : Filter) (field : String) : Bool :=
  isSortableL f.Sortable field

/-- One iteration of the operator switch in `applyComplexCondition`
(query.go): emit the clause for a single operator/value pair.  `like`
coerces its operand with `fmt.Sprintf("%v", value)`; `between` requires
the Go type assertion `value.([]interface{})` to succeed with exactly two
elements; unknown operators emit nothing. -/
def complexStep (f : Filter) (db : List Clause) (field op : String) (value : GoVal) :
    Filter × List Clause :=
  if op = "eq" then
    (f.recordSQL ("EQ " ++ field) (some value), db ++ [.cond (field ++ " = ?") [value]])
  else if op = "neq" then
    (f.recordSQL ("NEQ " ++ field) (some value), db ++ [.cond (field ++ " != ?") [value]])
  else if op = "gt" then
    (f.recordSQL ("GT " ++ field) (some value), db ++ [.cond (field ++ " > ?") [value]])
  else if op = "gte" then
    (f.recordSQL ("GTE " ++ field) (some value), db ++ [.cond (field ++ " >= ?") [value]])
  else if op = "lt" then
    (f.recordSQL ("LT " ++ field) (some value), db ++ [.cond (field ++ " < ?") [value]])
  else if op = "lte" then
    (f.recordSQL ("LTE " ++ field) (some value), db ++ [.cond (field ++ " <= ?") [value]])
  else if op = "like" then
    (f.recordSQL ("LIKE " ++ field) (some value),
     db ++ [.cond (field ++ " LIKE ?") [.str (govFmt value)]])
  else if op = "in" then
    (f.recordSQL ("IN " ++ field) (some value), db ++ [.cond (field ++ " IN (?)") [value]])
  else if op = "between" then
    match value with
    | .arr [a, b] =>
        (f.recordSQL ("BETWEEN " ++ field) (some value),
         db ++ [.cond (field ++ " BETWEEN ? AND ?") [a, b]])
    | _ => (f, db)
  else (f, db)

/-- applyComplexCondition — 应用复杂条件（如 like、gt、between）
(query.go); the `for op, value := range conds` loop is structural
recursion over the association list. -/
def Filter.applyComplexCondition (f : Filter) (db : List Clause) (field : String) :
    List (String × GoVal) → Filter × List Clause
  | [] => (f, db)
  | (op, value) :: rest =>
      let fd := complexStep f db field op value
      fd.1.applyComplexCondition fd.2 field rest

/-- One iteration of the value type switch in `applyQueryConditions`
(query.go): scalars emit equality, slices emit IN, nested maps delegate
to the operator table, anything else emits nothing.  The allow-list check
happens before this step. -/
def condStep (f : Filter) (db : List Clause) (field : String) (value : GoVal) :
    Filter × List Clause :=
  match value with
  | .str _ | .int _ | .num _ | .bool _ =>
      (f.recordSQL ("EQ " ++ field) (some value), db ++ [.cond (field ++ " = ?") [value]])
  | .arr _ =>
      (f.recordSQL ("IN " ++ field) (some value), db ++ [.cond (field ++ " IN (?)") [value]])
  | .strArr _ =>
      (f.recordSQL ("IN " ++ field) (some value), db ++ [.cond (field ++ " IN (?)") [value]])
  | .map v => f.applyComplexCondition db field v
  | _ => (f, db)

/-- applyQueryConditions — 应用查询条件 (query.go). -/
def Filter.applyQueryConditions (f : Filter) (db : List Clause) :
    List (String × GoVal) → Filter × List Clause
  | [] => (f, db)
  | (field, value) :: rest =>
      if !f.isFilterable field then f.applyQueryConditions db rest
      else
        let fd := condStep f db field value
        fd.1.applyQueryConditions fd.2 rest

/-- The JOIN statement string built for one `JoinConfig` (query.go):
case-insensitive "left" yields a LEFT JOIN, anything else the default
INNER JOIN. -/
def joinStmt (j : JoinConfig) : String :=
  if j.JoinType.toLower = "left" then "LEFT JOIN " ++ j.Table ++ " ON " ++ j.On
  else "INNER JOIN " ++ j.Table ++ " ON " ++ j.On

/-- The `for _, j := range f.Joins` loop of `PaginationQuery` (query.go). -/
def Filter.applyJoins (f : Filter) (db : List Clause) :
    List JoinConfig → Filter × List Clause
  | [] => (f, db)
  | j :: rest =>
      let stmt := joinStmt j
      (f.recordSQL stmt none).applyJoins (db ++ [.join stmt]) rest

/-- The trace reset at the top of `PaginationQuery` (query.go):
`if f.Debug { f.sqlRecords = []string{} }`. -/
def Filter.resetTrace (f : Filter) : Filter :=
  if f.Debug then { f with sqlRecords := [] } else f

/-- The Unscoped block of `PaginationQuery` (query.go). -/
def stageUnscoped (fd : Filter × List Clause) : Filter × List Clause :=
  if fd.1.Unscoped then
    (fd.1.recordSQL "UNSCOPED" (some (.str "include soft-deleted records")),
     fd.2 ++ [.unscoped])
  else fd

/-- The JOIN block of `PaginationQuery` (query.go). -/
def stageJoins (fd : Filter × List Clause) : Filter × List Clause :=
  if fd.1.Joins.length > 0 then fd.1.applyJoins fd.2 fd.1.Joins else fd

/-- The static `Filters` block of `PaginationQuery` (query.go). -/
def stageStatic (fd : Filter × List Clause) : Filter × List Clause :=
  if fd.1.Filters.length > 0 then fd.1.applyQueryConditions fd.2 fd.1.Filters else fd

/-- The dynamic-query block of `PaginationQuery` (query.go): a non-empty
`QueryStr` is unmarshalled by the external JSON collaborator `parse`; on
success the resulting map goes through the same condition compiler, on
failure nothing happens. -/
def stageDynamic (parse : String → Option (List (String × GoVal)))
    (fd : Filter × List Clause) : Filter × List Clause :=
  if fd.1.QueryStr ≠ "" then
    match parse fd.1.QueryStr with
    | some queryMap => fd.1.applyQueryConditions fd.2 queryMap
    | none => fd
  else fd

/-- PaginationQuery — 主入口 (query.go): reset the trace when debugging,
widen scope when `Unscoped`, apply joins, apply the static `Filters`
conditions, then parse `QueryStr` and apply it through the same condition
compiler; a parse failure is silently skipped.  The four sequential
statement blocks of the source body are the four stage functions. -/
def Filter.PaginationQuery (f : Filter)
    (parse : String → Option (List (String × GoVal))) (db : List Clause) :
    Filter × List Clause :=
  stageDynamic parse (stageStatic (stageJoins (stageUnscoped (f.resetTrace, db))))

/-- The `for _, s := range strings.Split(f.«Sort», ",")` loop of
`ApplySortAndPagination` (query.go): trim each token, skip empties, a
leading "-" means descending and is stripped before the sortable check. -/
def Filter.applySortTokens (f : Filter) (db : List Clause) :
    List String → Filter × List Clause
  | [] => (f, db)
  | s0 :: rest =>
      let s := trimSpace s0
      if s = "" then f.applySortTokens db rest
      else
        let ord := if hasDash s then "DESC" else "ASC"
        let field := if hasDash s then trimDash s else s
        if f.isSortable field then
          (f.recordSQL ("ORDER " ++ field ++ " " ++ ord) none).applySortTokens
            (db ++ [.order (field ++ " " ++ ord)]) rest
        else f.applySortTokens db rest

/-- The sort block of `ApplySortAndPagination` (query.go). -/
def stageSort (fd : Filter × List Clause) : Filter × List Clause :=
  if fd.1.«Sort» ≠ "" then fd.1.applySortTokens fd.2 (splitComma fd.1.«Sort») else fd

/-- The three in-place clamping statements of `ApplySortAndPagination`
(query.go): page at least 1, page size defaulting to 10 and capped at
500. -/
def clampFilter (f : Filter) : Filter :=
  let f2 := if f.Page ≤ 0 then { f with Page := 1 } else f
  let f3 := if f2.PageSize ≤ 0 then { f2 with PageSize := 10 } else f2
  if f3.PageSize > 500 then { f3 with PageSize := 500 } else f3

/-- The tail of `ApplySortAndPagination` (query.go) after the clamp, for
the already-clamped filter `f4`: compute the offset, emit offset/limit,
record the pagination trace line, and when debugging store gorm's dry-run
rendering of the final query. -/
def pagFinish (toSQL : List Clause → String) (f4 : Filter) (dbs : List Clause) :
    Filter × List Clause :=
  let off := (f4.Page - 1) * f4.PageSize
  let db2 := dbs ++ [.offset off, .limit f4.PageSize]
  let f5 := f4.recordSQL "Pagination"
    (some (.map [("page", .int f4.Page), ("pageSize", .int f4.PageSize)]))
  let f6 := if f5.Debug then { f5 with finalSQL := toSQL db2 } else f5
  (f6, db2)

/-- ApplySortAndPagination — 排序分页 (query.go): emit ORDER clauses for
the passing sort tokens, clamp `Page`/`PageSize` in place, emit
offset/limit, and when debugging render the final SQL through gorm's
dry-run (the external renderer `toSQL`). -/
def Filter.ApplySortAndPagination (f : Filter) (toSQL : List Clause → String)
    (db : List Clause) : Filter × List Clause :=
  pagFinish toSQL (clampFilter (stageSort (f, db)).1) (stageSort (f, db)).2

/-! ### Derived clause functions

Closed forms for the clause lists each compiler stage emits, proved equal
to the stage functions below.  They are derived from the source, never
from the spec's wording. -/

/-- The predicate clause(s) (zero or one) that one operator/value pair of
`applyComplexCondition` emits. -/
def complexClause (field op : String) (value : GoVal) : List Clause :=
  if op = "eq" then [.cond (field ++ " = ?") [value]]
  else if op = "neq" then [.cond (field ++ " != ?") [value]]
  else if op = "gt" then [.cond (field ++ " > ?") [value]]
  else if op = "gte" then [.cond (field ++ " >= ?") [value]]
  else if op = "lt" then [.cond (field ++ " < ?") [value]]
  else if op = "lte" then [.cond (field ++ " <= ?") [value]]
  else if op = "like" then [.cond (field ++ " LIKE ?") [.str (govFmt value)]]
  else if op = "in" then [.cond (field ++ " IN (?)") [value]]
  else if op = "between" then
    match value with
    | .arr [a, b] => [.cond (field ++ " BETWEEN ? AND ?") [a, b]]
    | _ => []
  else []

/-- The predicate clauses one whole nested operator map emits. -/
def emittedComplex (field : String) (conds : List (String × GoVal)) : List Clause :=
  conds.flatMap (fun p => complexClause field p.1 p.2)

/-- The predicate clause(s) one field/value pair emits once it has passed
the allow-list: the value type switch of `applyQueryConditions`. -/
def shapeClauses (field : String) : GoVal → List Clause
  | .str s => [.cond (field ++ " = ?") [.str s]]
  | .int n => [.cond (field ++ " = ?") [.int n]]
  | .num n => [.cond (field ++ " = ?") [.num n]]
  | .bool b => [.cond (field ++ " = ?") [.bool b]]
  | .arr xs => [.cond (field ++ " IN (?)") [.arr xs]]
  | .strArr xs => [.cond (field ++ " IN (?)") [.strArr xs]]
  | .map v => emittedComplex field v
  | .null => []
  | .other => []

/-- The predicate clauses a whole conditions map emits under the given
allow-list. -/
def emittedConds (filterable : List String) : List (String × GoVal) → List Clause
  | [] => []
  | (field, value) :: rest =>
      (if isFilterableL filterable field then shapeClauses field value else []) ++
        emittedConds filterable rest

/-- The scope-widening clause of the `Unscoped` stage. -/
def unscopedClauses (f : Filter) : List Clause :=
  if f.Unscoped then [.unscoped] else []

/-- The join clauses, one per declared `JoinConfig`, in declaration
order. -/
def joinClauses (f : Filter) : List Clause :=
  f.Joins.map (fun j => .join (joinStmt j))

/-- The predicate clauses contributed by the dynamic query string: none
when the string is empty or fails to parse as a JSON object. -/
def dynClauses (parse : String → Option (List (String × GoVal))) (f : Filter) : List Clause :=
  if f.QueryStr = "" then []
  else
    match parse f.QueryStr with
    | some m => emittedConds f.Filterable m
    | none => []

/-- Everything `PaginationQuery` appends to the incoming query builder. -/
def planClauses (parse : String → Option (List (String × GoVal))) (f : Filter) : List Clause :=
  unscopedClauses f ++ joinClauses f ++ emittedConds f.Filterable f.Filters ++ dynClauses parse f

/-- The trimmed sort field of one sort token, after stripping one leading
"-". -/
def sortField (s0 : String) : String :=
  let s := trimSpace s0
  if hasDash s then trimDash s else s

/-- The sort direction of one sort token. -/
def sortDir (s0 : String) : String :=
  if hasDash (trimSpace s0) then "DESC" else "ASC"

/-- The ORDER clause(s) (zero or one) emitted for one sort token. -/
def orderClausesOf (sortable : List String) (s0 : String) : List Clause :=
  let s := trimSpace s0
  if s = "" then []
  else if isSortableL sortable (sortField s0) then
    [.order (sortField s0 ++ " " ++ sortDir s0)]
  else []

/-- The ORDER clauses emitted for a whole sort directive. -/
def sortClauses (sort : String) (sortable : List String) : List Clause :=
  if sort = "" then [] else (splitComma sort).flatMap (orderClausesOf sortable)

/-- The effective page after the in-place clamp of
`ApplySortAndPagination`. -/
def clampPage (p : Int) : Int :=
  if p ≤ 0 then 1 else p

/-- The effective page size after the in-place clamp of
`ApplySortAndPagination`. -/
def clampSize (s : Int) : Int :=
  if s ≤ 0 then 10 else if s > 500 then 500 else s

/-- The full compiled plan a listing builds from a base builder `db`:
`PaginationQuery` followed by `ApplySortAndPagination`. -/
def compiledPlan (parse : String → Option (List (String × GoVal))) (f : Filter)
    (db : List Clause) : List Clause :=
  db ++ planClauses parse f ++ sortClauses f.«Sort» f.Sortable ++
    [.offset ((clampPage f.Page - 1) * clampSize f.PageSize), .limit (clampSize f.PageSize)]

/-! ### Storage collaborator and the CRUD / listing operations
(repository.go's package-level generic functions). -/

/-- The queries the repository issues against the storage collaborator,
in issue order. -/
inductive StorageOp where
  | lastWhereId (id : Nat)
  | updatesWhereId (id : Nat) (updates : List (String × GoVal))
  | updateColumnWhereId (id : Nat) (column : String) (value : GoVal)
  | deleteById (id : Nat)
  | countPlan (plan : List Clause)
  | findPlan (plan : List Clause)

/-- The error string of `errors.New("id cannot be zero")`. -/
def errIdZero : String := "id cannot be zero"

/-- gorm.ErrRecordNotFound, an external collaborator constant. -/
def gormErrRecordNotFound : String := "record not found"

/-- The part of a `*gorm.DB` result the by-id mutations inspect:
`RowsAffected` and `Error`. -/
structure GormResult where
  RowsAffected : Int
  Error : Option String

/-- The storage collaborator behaviour a listing query consumes: a row
count and a row fetch over a compiled plan, each able to fail. -/
structure Store (T : Type) where
  count : List Clause → Except String Int
  find : List Clause → Except String (List T)

/-- GetInfoById — 通用的根据id获取详细 (repository.go).  The
`Last(&res)` call is the collaborator parameter `last`; the call log
records the issued query.  A nil result slice/pointer is `Except.error`. -/
def GetInfoById {T : Type} (last : Nat → Except String T) (id : Nat) :
    Except String T × List StorageOp :=
  if id = 0 then (.error errIdZero, [])
  else (last id, [.lastWhereId id])

/-- UpdateByIdWithMap (repository.go): zero id is rejected before any
storage call; a storage error propagates; zero rows affected becomes
gorm.ErrRecordNotFound. -/
def UpdateByIdWithMap (updates : Nat → List (String × GoVal) → GormResult)
    (id : Nat) (m : List (String × GoVal)) : Option String × List StorageOp :=
  if id = 0 then (some errIdZero, [])
  else
    let result := updates id m
    let ops := [StorageOp.updatesWhereId id m]
    match result.Error with
    | some e => (some e, ops)
    | none => if result.RowsAffected = 0 then (some gormErrRecordNotFound, ops) else (none, ops)

/-- SoftDeleteById (repository.go): `db.Delete(new(T), id)` is the
collaborator parameter `delete0`. -/
def SoftDeleteById (delete0 : Nat → GormResult) (id : Nat) : Option String × List StorageOp :=
  if id = 0 then (some errIdZero, [])
  else
    let result := delete0 id
    let ops := [StorageOp.deleteById id]
    match result.Error with
    | some e => (some e, ops)
    | none => if result.RowsAffected = 0 then (some gormErrRecordNotFound, ops) else (none, ops)

/-- DeleteById — 设置is_deleted = 1 (repository.go):
`UpdateColumn("is_deleted", 1)` is the collaborator parameter
`updateColumn`. -/
def DeleteById (updateColumn : Nat → GormResult) (id : Nat) : Option String × List StorageOp :=
  if id = 0 then (some errIdZero, [])
  else
    let result := updateColumn id
    let ops := [StorageOp.updateColumnWhereId id "is_deleted" (.int 1)]
    match result.Error with
    | some e => (some e, ops)
    | none => if result.RowsAffected = 0 then (some gormErrRecordNotFound, ops) else (none, ops)

/-- The five return values of `QueryWithPagination`, together with the
final state of the pointed-to `Filter` and the log of storage queries
issued.  `records = none` is Go's nil slice, `records = some []` the
allocated empty slice `[]T{}`. -/
structure PagOutput (T : Type) where
  records : Option (List T)
  total : Int
  page : Int
  pageSize : Int
  err : Option String
  filter : Filter
  calls : List StorageOp

/-- QueryWithPagination — 通用分页查询函数 (repository.go): compile the
predicate plan, count; on count error or zero count return early (before
the sort/pagination stage touches the filter); otherwise apply sort and
pagination and fetch. -/
def QueryWithPagination {T : Type} (parse : String → Option (List (String × GoVal)))
    (toSQL : List Clause → String) (store : Store T) (f : Filter) (db : List Clause) :
    PagOutput T :=
  let fq := f.PaginationQuery parse db
  match store.count fq.2 with
  | .error e => ⟨none, 0, fq.1.Page, fq.1.PageSize, some e, fq.1, [.countPlan fq.2]⟩
  | .ok count =>
      if count = 0 then
        ⟨some [], 0, fq.1.Page, fq.1.PageSize, none, fq.1, [.countPlan fq.2]⟩
      else
        let sp := fq.1.ApplySortAndPagination toSQL fq.2
        match store.find sp.2 with
        | .error e =>
            ⟨none, 0, sp.1.Page, sp.1.PageSize, some e, sp.1,
             [.countPlan fq.2, .findPlan sp.2]⟩
        | .ok result =>
            ⟨some result, count, sp.1.Page, sp.1.PageSize, none, sp.1,
             [.countPlan fq.2, .findPlan sp.2]⟩

/-- The return values of `QueryWithFilter`, with the final filter state
and the storage call log. -/
structure ListOutput (T : Type) where
  records : Option (List T)
  err : Option String
  filter : Filter
  calls : List StorageOp

/-- QueryWithFilter — 通用查询函数 (repository.go): compile the plan
including sort and pagination, then fetch; no count query is issued. -/
def QueryWithFilter {T : Type} (parse : String → Option (List (String × GoVal)))
    (toSQL : List Clause → String) (store : Store T) (f : Filter) (db : List Clause) :
    ListOutput T :=
  let fq := f.PaginationQuery parse db
  let sp := fq.1.ApplySortAndPagination toSQL fq.2
  match store.find sp.2 with
  | .error e => ⟨none, some e, sp.1, [.findPlan sp.2]⟩
  | .ok result => ⟨some result, none, sp.1, [.findPlan sp.2]⟩

/-! ### Frame relations and stage characterization lemmas -/

/-- All `Filter` fields other than `Page`, `PageSize`, `sqlRecords` and
`finalSQL` agree: what the whole compilation pipeline leaves untouched. -/
def RestFrame (f g : Filter) : Prop :=
  g.Filterable = f.Filterable ∧ g.QueryStr = f.QueryStr ∧ g.Filters = f.Filters ∧
    g.Sortable = f.Sortable ∧ g.«Sort» = f.«Sort» ∧ g.Unscoped = f.Unscoped ∧
    g.Joins = f.Joins ∧ g.Debug = f.Debug

/-- Only the debug trace `sqlRecords` may differ between `f` and `g`. -/
def TraceOnly (f g : Filter) : Prop :=
  RestFrame f g ∧ g.Page = f.Page ∧ g.PageSize = f.PageSize ∧ g.finalSQL = f.finalSQL

theorem restFrame_refl (f : Filter) : RestFrame f f :=
  ⟨rfl, rfl, rfl, rfl, rfl, rfl, rfl, rfl⟩

theorem restFrame_trans {f g k : Filter} (h1 : RestFrame f g) (h2 : RestFrame g k) :
    RestFrame f k := by
  obtain ⟨a1, a2, a3, a4, a5, a6, a7, a8⟩ := h1
  obtain ⟨b1, b2, b3, b4, b5, b6, b7, b8⟩ := h2
  exact ⟨b1.trans a1, b2.trans a2, b3.trans a3, b4.trans a4, b5.trans a5,
    b6.trans a6, b7.trans a7, b8.trans a8⟩

theorem traceOnly_refl (f : Filter) : TraceOnly f f :=
  ⟨restFrame_refl f, rfl, rfl, rfl⟩

theorem traceOnly_trans {f g k : Filter} (h1 : TraceOnly f g) (h2 : TraceOnly g k) :
    TraceOnly f k :=
  ⟨restFrame_trans h1.1 h2.1, h2.2.1.trans h1.2.1, h2.2.2.1.trans h1.2.2.1,
    h2.2.2.2.trans h1.2.2.2⟩

theorem traceOnly_recordSQL (f : Filter) (desc : String) (val : Option GoVal) :
    TraceOnly f (f.recordSQL desc val) := by
  unfold Filter.recordSQL
  split
  · exact traceOnly_refl f
  · exact ⟨⟨rfl, rfl, rfl, rfl, rfl, rfl, rfl, rfl⟩, rfl, rfl, rfl⟩

theorem traceOnly_resetTrace (f : Filter) : TraceOnly f f.resetTrace := by
  unfold Filter.resetTrace
  split
  · exact ⟨⟨rfl, rfl, rfl, rfl, rfl, rfl, rfl, rfl⟩, rfl, rfl, rfl⟩
  · exact traceOnly_refl f

set_option maxHeartbeats 1000000 in
theorem complexStep_spec (f : Filter) (db : List Clause) (field op : String) (value : GoVal) :
    TraceOnly f (complexStep f db field op value).1 ∧
      (complexStep f db field op value).2 = db ++ complexClause field op value := by
  unfold complexStep complexClause
  split_ifs <;>
    first
      | exact ⟨traceOnly_recordSQL f _ _, rfl⟩
      | (constructor
         · split
           · exact traceOnly_recordSQL f _ _
           · exact traceOnly_refl f
         · split
           · rfl
           · simp)
      | exact ⟨traceOnly_refl f, by simp⟩

theorem applyComplexCondition_spec (field : String) (conds : List (String × GoVal)) :
    ∀ (f : Filter) (db : List Clause),
      TraceOnly f (f.applyComplexCondition db field conds).1 ∧
        (f.applyComplexCondition db field conds).2 = db ++ emittedComplex field conds := by
  induction conds with
  | nil => intro f db; exact ⟨traceOnly_refl f, by simp [Filter.applyComplexCondition, emittedComplex]⟩
  | cons p rest ih =>
      intro f db
      obtain ⟨op, value⟩ := p
      have hstep := complexStep_spec f db field op value
      have hrec := ih (complexStep f db field op value).1 (complexStep f db field op value).2
      refine ⟨traceOnly_trans hstep.1 hrec.1, ?_⟩
      rw [Filter.applyComplexCondition]
      rw [hrec.2, hstep.2]
      simp [emittedComplex, List.append_assoc]

theorem condStep_spec (f : Filter) (db : List Clause) (field : String) (value : GoVal) :
    TraceOnly f (condStep f db field value).1 ∧
      (condStep f db field value).2 = db ++ shapeClauses field value := by
  cases value with
  | map v => exact applyComplexCondition_spec field v f db
  | null => exact ⟨traceOnly_refl f, by simp [condStep, shapeClauses]⟩
  | other => exact ⟨traceOnly_refl f, by simp [condStep, shapeClauses]⟩
  | _ => exact ⟨traceOnly_recordSQL f _ _, rfl⟩

theorem applyQueryConditions_spec (m : List (String × GoVal)) :
    ∀ (f : Filter) (db : List Clause),
      TraceOnly f (f.applyQueryConditions db m).1 ∧
        (f.applyQueryConditions db m).2 = db ++ emittedConds f.Filterable m := by
  induction m with
  | nil => intro f db; exact ⟨traceOnly_refl f, by simp [Filter.applyQueryConditions, emittedConds]⟩
  | cons p rest ih =>
      intro f db
      obtain ⟨field, value⟩ := p
      rw [Filter.applyQueryConditions]
      by_cases hf : f.isFilterable field
      · have hstep := condStep_spec f db field value
        have hrec := ih (condStep f db field value).1 (condStep f db field value).2
        have hfl : (condStep f db field value).1.Filterable = f.Filterable := hstep.1.1.1
        simp only [hf, Bool.not_true, Bool.false_eq_true, if_false, if_true, reduceIte]
        refine ⟨traceOnly_trans hstep.1 hrec.1, ?_⟩
        rw [hrec.2, hfl, hstep.2, emittedConds]
        have : isFilterableL f.Filterable field = true := hf
        simp [this, List.append_assoc]
      · have hrec := ih f db
        simp only [hf, Bool.not_false, if_true, reduceIte]
        refine ⟨hrec.1, ?_⟩
        rw [hrec.2, emittedConds]
        have : isFilterableL f.Filterable field = false := by
          simpa [Filter.isFilterable] using hf
        simp [this]

theorem applyJoins_spec (js : List JoinConfig) :
    ∀ (f : Filter) (db : List Clause),
      TraceOnly f (f.applyJoins db js).1 ∧
        (f.applyJoins db js).2 = db ++ js.map (fun j => .join (joinStmt j)) := by
  induction js with
  | nil => intro f db; exact ⟨traceOnly_refl f, by simp [Filter.applyJoins]⟩
  | cons j rest ih =>
      intro f db
      rw [Filter.applyJoins]
      have hrec := ih (f.recordSQL (joinStmt j) none) (db ++ [.join (joinStmt j)])
      refine ⟨traceOnly_trans (traceOnly_recordSQL f _ _) hrec.1, ?_⟩
      rw [hrec.2]
      simp

theorem applySortTokens_spec (toks : List String) :
    ∀ (f : Filter) (db : List Clause),
      TraceOnly f (f.applySortTokens db toks).1 ∧
        (f.applySortTokens db toks).2 = db ++ toks.flatMap (orderClausesOf f.Sortable) := by
  induction toks with
  | nil => intro f db; exact ⟨traceOnly_refl f, by simp [Filter.applySortTokens]⟩
  | cons s0 rest ih =>
      intro f db
      rw [Filter.applySortTokens]
      by_cases he : trimSpace s0 = ""
      · have hrec := ih f db
        simp only [he, if_true, reduceIte]
        refine ⟨hrec.1, ?_⟩
        rw [hrec.2]
        simp [orderClausesOf, he]
      · simp only [he, if_false, reduceIte]
        by_cases hs : f.isSortable
          (if hasDash (trimSpace s0) then trimDash (trimSpace s0) else trimSpace s0) = true
        · rw [if_pos hs]
          have hrec := ih
            (f.recordSQL ("ORDER " ++
              (if hasDash (trimSpace s0) then trimDash (trimSpace s0) else trimSpace s0)
              ++ " " ++ (if hasDash (trimSpace s0) then "DESC" else "ASC")) none)
            (db ++ [.order ((if hasDash (trimSpace s0) then trimDash (trimSpace s0) else trimSpace s0)
              ++ " " ++ (if hasDash (trimSpace s0) then "DESC" else "ASC"))])
          have hsl : (f.recordSQL ("ORDER " ++
              (if hasDash (trimSpace s0) then trimDash (trimSpace s0) else trimSpace s0)
              ++ " " ++ (if hasDash (trimSpace s0) then "DESC" else "ASC")) none).Sortable
              = f.Sortable := (traceOnly_recordSQL f _ _).1.2.2.2.1
          refine ⟨traceOnly_trans (traceOnly_recordSQL f _ _) hrec.1, ?_⟩
          rw [hrec.2, hsl]
          have hsl2 : isSortableL f.Sortable
              (if hasDash (trimSpace s0) then trimDash (trimSpace s0) else trimSpace s0)
              = true := by
            simpa [Filter.isSortable] using hs
          simp [orderClausesOf, he, hsl2, sortField, sortDir, List.append_assoc]
        · rw [if_neg hs]
          have hrec := ih f db
          refine ⟨hrec.1, ?_⟩
          rw [hrec.2]
          have hsl2 : isSortableL f.Sortable
              (if hasDash (trimSpace s0) then trimDash (trimSpace s0) else trimSpace s0)
              = false := by
            simpa [Filter.isSortable] using hs
          simp [orderClausesOf, he, hsl2, sortField, sortDir]

theorem unscopedClauses_congr {f g : Filter} (h : RestFrame f g) :
    unscopedClauses g = unscopedClauses f := by
  simp [unscopedClauses, h.2.2.2.2.2.1]

theorem joinClauses_congr {f g : Filter} (h : RestFrame f g) :
    joinClauses g = joinClauses f := by
  simp [joinClauses, h.2.2.2.2.2.2.1]

theorem staticClauses_congr {f g : Filter} (h : RestFrame f g) :
    emittedConds g.Filterable g.Filters = emittedConds f.Filterable f.Filters := by
  rw [h.1, h.2.2.1]

theorem dynClauses_congr (parse : String → Option (List (String × GoVal))) {f g : Filter}
    (h : RestFrame f g) : dynClauses parse g = dynClauses parse f := by
  simp only [dynClauses, h.1, h.2.1]

theorem sortClauses_congr {f g : Filter} (h : RestFrame f g) :
    sortClauses g.«Sort» g.Sortable = sortClauses f.«Sort» f.Sortable := by
  rw [h.2.2.2.1, h.2.2.2.2.1]

theorem stageUnscoped_spec (fd : Filter × List Clause) :
    TraceOnly fd.1 (stageUnscoped fd).1 ∧
      (stageUnscoped fd).2 = fd.2 ++ unscopedClauses fd.1 := by
  by_cases hu : fd.1.Unscoped = true
  · simp only [stageUnscoped, unscopedClauses, hu, if_true, reduceIte]
    refine ⟨traceOnly_recordSQL _ _ _, ?_⟩
    trivial
  · simp only [stageUnscoped, unscopedClauses, hu, if_false, reduceIte]
    exact ⟨traceOnly_refl _, by simp⟩

theorem stageJoins_spec (fd : Filter × List Clause) :
    TraceOnly fd.1 (stageJoins fd).1 ∧
      (stageJoins fd).2 = fd.2 ++ joinClauses fd.1 := by
  by_cases hj : fd.1.Joins.length > 0
  · simp only [stageJoins, hj, if_true, reduceIte]
    exact ⟨(applyJoins_spec _ _ _).1, (applyJoins_spec _ _ _).2⟩
  · have hje : fd.1.Joins = [] := List.length_eq_zero.mp (by omega)
    simp only [stageJoins, hj, if_false, reduceIte]
    exact ⟨traceOnly_refl _, by simp [joinClauses, hje]⟩

theorem stageStatic_spec (fd : Filter × List Clause) :
    TraceOnly fd.1 (stageStatic fd).1 ∧
      (stageStatic fd).2 = fd.2 ++ emittedConds fd.1.Filterable fd.1.Filters := by
  by_cases hf : fd.1.Filters.length > 0
  · simp only [stageStatic, hf, if_true, reduceIte]
    exact applyQueryConditions_spec _ _ _
  · have hfe : fd.1.Filters = [] := List.length_eq_zero.mp (by omega)
    simp only [stageStatic, hf, if_false, reduceIte]
    exact ⟨traceOnly_refl _, by simp [hfe, emittedConds]⟩

theorem stageDynamic_spec (parse : String → Option (List (String × GoVal)))
    (fd : Filter × List Clause) :
    TraceOnly fd.1 (stageDynamic parse fd).1 ∧
      (stageDynamic parse fd).2 = fd.2 ++ dynClauses parse fd.1 := by
  by_cases hq : fd.1.QueryStr = ""
  · simp only [stageDynamic, dynClauses, hq, ne_eq, not_true_eq_false, if_false, if_true, reduceIte]
    exact ⟨traceOnly_refl _, by simp⟩
  · simp only [stageDynamic, dynClauses, hq, ne_eq, not_false_eq_true, if_true, if_false, reduceIte]
    cases hp : parse fd.1.QueryStr with
    | some m => exact applyQueryConditions_spec _ _ _
    | none => exact ⟨traceOnly_refl _, by simp⟩

theorem paginationQuery_spec (parse : String → Option (List (String × GoVal)))
    (f : Filter) (db : List Clause) :
    TraceOnly f (f.PaginationQuery parse db).1 ∧
      (f.PaginationQuery parse db).2 = db ++ planClauses parse f := by
  have h0 := traceOnly_resetTrace f
  have h1 := stageUnscoped_spec (f.resetTrace, db)
  have h2 := stageJoins_spec (stageUnscoped (f.resetTrace, db))
  have h3 := stageStatic_spec (stageJoins (stageUnscoped (f.resetTrace, db)))
  have h4 := stageDynamic_spec parse (stageStatic (stageJoins (stageUnscoped (f.resetTrace, db))))
  have t1 : TraceOnly f (stageUnscoped (f.resetTrace, db)).1 := traceOnly_trans h0 h1.1
  have t2 : TraceOnly f (stageJoins (stageUnscoped (f.resetTrace, db))).1 :=
    traceOnly_trans t1 h2.1
  have t3 : TraceOnly f (stageStatic (stageJoins (stageUnscoped (f.resetTrace, db)))).1 :=
    traceOnly_trans t2 h3.1
  constructor
  · exact traceOnly_trans t3 h4.1
  · rw [Filter.PaginationQuery, h4.2, h3.2, h2.2, h1.2]
    rw [unscopedClauses_congr h0.1, joinClauses_congr t1.1, staticClauses_congr t2.1,
      dynClauses_congr parse t3.1]
    simp [planClauses, List.append_assoc]

theorem stageSort_spec (fd : Filter × List Clause) :
    TraceOnly fd.1 (stageSort fd).1 ∧
      (stageSort fd).2 = fd.2 ++ sortClauses fd.1.«Sort» fd.1.Sortable := by
  by_cases hq : fd.1.«Sort» = ""
  · simp only [stageSort, sortClauses, hq, ne_eq, not_true_eq_false, if_false, if_true, reduceIte]
    exact ⟨traceOnly_refl _, by simp⟩
  · simp only [stageSort, sortClauses, hq, ne_eq, not_false_eq_true, if_true, if_false, reduceIte]
    exact applySortTokens_spec _ _ _

theorem clampFilter_eq (f : Filter) :
    clampFilter f = { f with Page := clampPage f.Page, PageSize := clampSize f.PageSize } := by
  unfold clampFilter clampPage clampSize
  by_cases hp : f.Page ≤ 0 <;> by_cases h1 : f.PageSize ≤ 0 <;>
    simp [hp, h1] <;> by_cases h2 : f.PageSize > 500 <;> simp [h2]

theorem clampFilter_spec (f : Filter) :
    (clampFilter f).Page = clampPage f.Page ∧ (clampFilter f).PageSize = clampSize f.PageSize ∧
      RestFrame f (clampFilter f) ∧ (clampFilter f).sqlRecords = f.sqlRecords ∧
      (clampFilter f).finalSQL = f.finalSQL := by
  rw [clampFilter_eq]
  exact ⟨rfl, rfl, ⟨rfl, rfl, rfl, rfl, rfl, rfl, rfl, rfl⟩, rfl, rfl⟩

theorem pagFinish_spec (toSQL : List Clause → String) (g : Filter) (dbs : List Clause) :
    (pagFinish toSQL g dbs).2 =
      dbs ++ [.offset ((g.Page - 1) * g.PageSize), .limit g.PageSize] ∧
      (pagFinish toSQL g dbs).1.Page = g.Page ∧
      (pagFinish toSQL g dbs).1.PageSize = g.PageSize ∧
      RestFrame g (pagFinish toSQL g dbs).1 := by
  have hrs := traceOnly_recordSQL g "Pagination"
    (some (.map [("page", .int g.Page), ("pageSize", .int g.PageSize)]))
  simp only [pagFinish]
  refine ⟨by trivial, ?_, ?_, ?_⟩
  · split
    · exact hrs.2.1
    · exact hrs.2.1
  · split
    · exact hrs.2.2.1
    · exact hrs.2.2.1
  · split
    · exact restFrame_trans hrs.1 ⟨rfl, rfl, rfl, rfl, rfl, rfl, rfl, rfl⟩
    · exact hrs.1

theorem applySortAndPagination_spec (toSQL : List Clause → String) (f : Filter)
    (db : List Clause) :
    (f.ApplySortAndPagination toSQL db).2 =
      db ++ sortClauses f.«Sort» f.Sortable ++
        [.offset ((clampPage f.Page - 1) * clampSize f.PageSize),
         .limit (clampSize f.PageSize)] ∧
      (f.ApplySortAndPagination toSQL db).1.Page = clampPage f.Page ∧
      (f.ApplySortAndPagination toSQL db).1.PageSize = clampSize f.PageSize ∧
      RestFrame f (f.ApplySortAndPagination toSQL db).1 := by
  have h1 := stageSort_spec (f, db)
  have hc := clampFilter_spec (stageSort (f, db)).1
  have hpg : (clampFilter (stageSort (f, db)).1).Page = clampPage f.Page := by
    rw [hc.1, h1.1.2.1]
  have hps : (clampFilter (stageSort (f, db)).1).PageSize = clampSize f.PageSize := by
    rw [hc.2.1, h1.1.2.2.1]
  have hp := pagFinish_spec toSQL (clampFilter (stageSort (f, db)).1) (stageSort (f, db)).2
  rw [Filter.ApplySortAndPagination]
  refine ⟨?_, ?_, ?_, ?_⟩
  · rw [hp.1, h1.2, hpg, hps, List.append_assoc]
  · rw [hp.2.1, hpg]
  · rw [hp.2.2.1, hps]
  · exact restFrame_trans h1.1.1 (restFrame_trans hc.2.2.1 hp.2.2.2)

/-- Combined pipeline characterization: `PaginationQuery` followed by
`ApplySortAndPagination` appends exactly the `compiledPlan` clauses to
the base builder, writes the clamped page/pageSize back into the filter,
and changes no other non-trace field. -/
theorem pipeline_spec (parse : String → Option (List (String × GoVal)))
    (toSQL : List Clause → String) (f : Filter) (db : List Clause) :
    ((f.PaginationQuery parse db).1.ApplySortAndPagination toSQL
        (f.PaginationQuery parse db).2).2 = compiledPlan parse f db ∧
      ((f.PaginationQuery parse db).1.ApplySortAndPagination toSQL
        (f.PaginationQuery parse db).2).1.Page = clampPage f.Page ∧
      ((f.PaginationQuery parse db).1.ApplySortAndPagination toSQL
        (f.PaginationQuery parse db).2).1.PageSize = clampSize f.PageSize ∧
      RestFrame f ((f.PaginationQuery parse db).1.ApplySortAndPagination toSQL
        (f.PaginationQuery parse db).2).1 := by
  have hq := paginationQuery_spec parse f db
  have hs := applySortAndPagination_spec toSQL (f.PaginationQuery parse db).1
    (f.PaginationQuery parse db).2
  have hfr := hq.1.1
  refine ⟨?_, ?_, ?_, ?_⟩
  · rw [hs.1, hq.2, sortClauses_congr hfr, hq.1.2.1, hq.1.2.2.1]
    simp [compiledPlan, List.append_assoc]
  · rw [hs.2.1, hq.1.2.1]
  · rw [hs.2.2.1, hq.1.2.2.1]
  · exact restFrame_trans hfr hs.2.2.2

/-! ### Concrete instances used by witnesses and counterexamples -/

/-- A JSON collaborator that fails on every input. -/
def parse0 : String → Option (List (String × GoVal)) := fun _ => none

/-- A trivial SQL renderer. -/
def toSQL0 : List Clause → String := fun _ => ""

/-- A storage collaborator whose count is always 0 and whose find always
succeeds with no rows. -/
def store0 : Store Unit := ⟨fun _ => .ok 0, fun _ => .ok []⟩

/-- A storage collaborator whose count always fails. -/
def storeErr : Store Unit := ⟨fun _ => .error "boom", fun _ => .ok []⟩

/-- A storage collaborator whose count is always 5. -/
def storeOk5 : Store Unit := ⟨fun _ => .ok 5, fun _ => .ok []⟩

/-- A filter with out-of-range page values. -/
def badPageFilter : Filter := { emptyFilter with Page := 0, PageSize := 1000 }

/-! ### Claims -/

/-- C5: for every call to GetInfoById, UpdateByIdWithMap, DeleteById, or
SoftDeleteById with id = 0, the operation returns the InvalidId error
("id cannot be zero") and issues no call to the storage collaborator:
the call log is empty, for every collaborator behaviour. -/
theorem idZero_rejected_without_storage_call (T : Type) (last : Nat → Except String T)
    (upd : Nat → List (String × GoVal) → GormResult) (ucol : Nat → GormResult)
    (del : Nat → GormResult) (m : List (String × GoVal)) :
    GetInfoById last 0 = (Except.error errIdZero, []) ∧
      UpdateByIdWithMap upd 0 m = (some errIdZero, []) ∧
      DeleteById ucol 0 = (some errIdZero, []) ∧
      SoftDeleteById del 0 = (some errIdZero, []) :=
  ⟨rfl, rfl, rfl, rfl⟩

/-- C6: with an empty Filterable list the allow-list check accepts every
field name, and consequently the condition compiler emits, for every
conditions map, exactly the clauses of its well-shaped entries — no entry
is dropped by the allow-list. -/
theorem emptyFilterable_accepts_all (f : Filter) (hf : f.Filterable = []) :
    (∀ field, f.isFilterable field = true) ∧
      ∀ (db : List Clause) (m : List (String × GoVal)),
        (f.applyQueryConditions db m).2 =
          db ++ m.flatMap (fun p => shapeClauses p.1 p.2) := by
  constructor
  · intro field
    simp [Filter.isFilterable, isFilterableL, hf]
  · intro db m
    rw [(applyQueryConditions_spec m f db).2, hf]
    congr 1
    induction m with
    | nil => simp [emittedConds]
    | cons p rest ih =>
        obtain ⟨a, b⟩ := p
        simp [emittedConds, isFilterableL, ih]

/-- Witness for C6 at the zero-value filter and a concrete field name. -/
theorem emptyFilterable_accepts_all_witness :
    emptyFilter.isFilterable "secret_column" = true :=
  (emptyFilterable_accepts_all emptyFilter rfl).1 "secret_column"

/-- C9 counterexample: a `between` whose value IS a two-element sequence
— but a Go `[]string`, not `[]interface{}` — emits no clause, because the
type assertion `value.([]interface{})` fails; the claim as stated
("a 'between' with a 2-element sequence emits exactly one range clause")
is false for this input. -/
theorem between_strArr_counterexample :
    (emptyFilter.applyComplexCondition [] "age" [("between", GoVal.strArr ["1", "2"])]).2
      = [] := rfl

/-- C9 amended: a `between` operator emits exactly one range clause bound
to the two elements in order when its value is a dynamically-typed
(`[]interface{}`) sequence of exactly two elements, and emits no clause
and raises no error for every other value (wrong arity, non-sequence, or
a `[]string` sequence). -/
theorem between_arity (f : Filter) (db : List Clause) (field : String) (v : GoVal)
    (rest : List (String × GoVal)) :
    (f.applyComplexCondition db field (("between", v) :: rest)).2 =
      db ++ (match v with
             | .arr [a, b] => [Clause.cond (field ++ " BETWEEN ? AND ?") [a, b]]
             | _ => []) ++ emittedComplex field rest := by
  rw [(applyComplexCondition_spec field (("between", v) :: rest) f db).2]
  have hcc : emittedComplex field (("between", v) :: rest) =
      complexClause field "between" v ++ emittedComplex field rest := by
    simp [emittedComplex]
  rw [hcc, ← List.append_assoc]
  cases v <;> rfl

/-- C8: a QueryStr that does not unmarshal into a JSON object contributes
zero predicate clauses and raises no error: the compiled plan equals the
plan of the same filter with an empty QueryStr, and consists exactly of
the unscoped/join/static clauses. -/
theorem badDynamicQuery_ignored (parse : String → Option (List (String × GoVal)))
    (f : Filter) (db : List Clause) (h : parse f.QueryStr = none) :
    (f.PaginationQuery parse db).2 = (({ f with QueryStr := "" }).PaginationQuery parse db).2 ∧
      (f.PaginationQuery parse db).2 =
        db ++ unscopedClauses f ++ joinClauses f ++ emittedConds f.Filterable f.Filters := by
  have h1 := (paginationQuery_spec parse f db).2
  have h2 := (paginationQuery_spec parse ({ f with QueryStr := "" }) db).2
  have hd : dynClauses parse f = [] := by
    unfold dynClauses
    by_cases hq : f.QueryStr = "" <;> simp [hq, h]
  have hd2 : dynClauses parse { f with QueryStr := "" } = [] := by
    simp [dynClauses]
  constructor
  · rw [h1, h2]
    simp [planClauses, hd, hd2, unscopedClauses, joinClauses]
  · rw [h1]
    simp [planClauses, hd, List.append_assoc]

/-- Witness for C8: a concrete unparseable QueryStr with the
always-failing JSON collaborator leaves the plan empty. -/
theorem badDynamicQuery_ignored_witness :
    (({ emptyFilter with QueryStr := "not json" }).PaginationQuery parse0 []).2 =
        (({ emptyFilter with QueryStr := "" }).PaginationQuery parse0 []).2 ∧
      (({ emptyFilter with QueryStr := "not json" }).PaginationQuery parse0 []).2 =
        [] ++ unscopedClauses { emptyFilter with QueryStr := "not json" } ++
          joinClauses { emptyFilter with QueryStr := "not json" } ++
          emittedConds [] [] :=
  badDynamicQuery_ignored parse0 { emptyFilter with QueryStr := "not json" } [] rfl

/-- C3: when the count query of a paginated listing returns 0, the whole
result is the allocated empty record sequence with total 0 and no error,
the filter is exactly the state left by the predicate compilation (the
sort/pagination stage never ran, so Page/PageSize are still unclamped),
and the only storage query issued is the count — no row fetch. -/
theorem zeroCount_shortCircuit (T : Type) (parse : String → Option (List (String × GoVal)))
    (toSQL : List Clause → String) (store : Store T) (f : Filter) (db : List Clause)
    (h : store.count (f.PaginationQuery parse db).2 = Except.ok 0) :
    QueryWithPagination parse toSQL store f db =
      ⟨some [], 0, (f.PaginationQuery parse db).1.Page, (f.PaginationQuery parse db).1.PageSize,
       none, (f.PaginationQuery parse db).1, [.countPlan (f.PaginationQuery parse db).2]⟩ := by
  unfold QueryWithPagination
  dsimp only
  rw [h]
  simp

/-- Witness for C3 with the always-zero-count store. -/
theorem zeroCount_shortCircuit_witness :
    QueryWithPagination parse0 toSQL0 store0 emptyFilter [] =
      ⟨some [], 0, 0, 0, none, emptyFilter, [.countPlan []]⟩ :=
  zeroCount_shortCircuit Unit parse0 toSQL0 store0 emptyFilter [] rfl

theorem clampPage_ge_one (p : Int) : 1 ≤ clampPage p := by
  unfold clampPage
  split <;> omega

theorem clampSize_bounds (s : Int) : 1 ≤ clampSize s ∧ clampSize s ≤ 500 := by
  unfold clampSize
  split_ifs <;> omega

/-- C1 counterexample: for the zero-value filter, QueryWithFilter issues
exactly one storage query — a fetch whose plan carries a LIMIT 10 clause.
The returned record set therefore IS truncated by a row limit, refuting
the claim that the set of returned records is not truncated by any row
limit. -/
theorem queryWithFilter_limit_counterexample :
    (QueryWithFilter parse0 toSQL0 store0 emptyFilter []).calls =
        [.findPlan [.offset 0, .limit 10]] ∧
      [Clause.offset 0, Clause.limit 10].any Clause.isLimit = true :=
  ⟨rfl, rfl⟩

/-- C1 (amended): QueryWithFilter issues exactly one storage query, a row
fetch over the fully compiled plan — predicates, then sort, then
offset/limit with the clamped page size in [1, 500] — and no count query;
it returns the rows of that fetch, hence at most the (always present)
row limit of clamped pageSize rows, not the unlimited match set. -/
theorem queryWithFilter_single_find_with_limit (T : Type)
    (parse : String → Option (List (String × GoVal))) (toSQL : List Clause → String)
    (store : Store T) (f : Filter) (db : List Clause) :
    (QueryWithFilter parse toSQL store f db).calls = [.findPlan (compiledPlan parse f db)] ∧
      1 ≤ clampSize f.PageSize ∧ clampSize f.PageSize ≤ 500 ∧
      (compiledPlan parse f db).any Clause.isLimit = true ∧
      (QueryWithFilter parse toSQL store f db).records =
        (match store.find (compiledPlan parse f db) with
         | .ok r => some r
         | .error _ => none) := by
  have hp := (pipeline_spec parse toSQL f db).1
  unfold QueryWithFilter
  dsimp only
  rw [hp]
  refine ⟨?_, (clampSize_bounds f.PageSize).1, (clampSize_bounds f.PageSize).2, ?_, ?_⟩
  · cases hf : store.find (compiledPlan parse f db) <;> simp
  · simp [compiledPlan, Clause.isLimit, List.any_append]
  · cases hf : store.find (compiledPlan parse f db) <;> simp

/-- C2 counterexample: with the caller's page 0 and pageSize 1000 and a
count of zero, QueryWithPagination returns the caller's values unchanged
(0 and 1000) instead of the clamped 1 and 500 the claim requires on every
return path. -/
theorem pagination_clamp_counterexample :
    (QueryWithPagination parse0 toSQL0 store0 badPageFilter []).page = 0 ∧
      (QueryWithPagination parse0 toSQL0 store0 badPageFilter []).pageSize = 1000 :=
  ⟨rfl, rfl⟩

/-- C2 (amended): the clamping of the returned effective page and
pageSize holds exactly on the return paths that pass the sort/pagination
stage (count succeeded and was non-zero); on the count-error path and the
zero-count path the caller's original Page and PageSize are returned
unmodified. -/
theorem pagination_clamp_paths (T : Type)
    (parse : String → Option (List (String × GoVal))) (toSQL : List Clause → String)
    (store : Store T) (f : Filter) (db : List Clause) :
    ((∃ e, store.count (f.PaginationQuery parse db).2 = .error e) →
        (QueryWithPagination parse toSQL store f db).page = f.Page ∧
          (QueryWithPagination parse toSQL store f db).pageSize = f.PageSize) ∧
      (store.count (f.PaginationQuery parse db).2 = .ok 0 →
        (QueryWithPagination parse toSQL store f db).page = f.Page ∧
          (QueryWithPagination parse toSQL store f db).pageSize = f.PageSize) ∧
      (∀ n : Int, store.count (f.PaginationQuery parse db).2 = .ok n → ¬n = 0 →
        (QueryWithPagination parse toSQL store f db).page = clampPage f.Page ∧
          (QueryWithPagination parse toSQL store f db).pageSize = clampSize f.PageSize ∧
          1 ≤ (QueryWithPagination parse toSQL store f db).page ∧
          1 ≤ (QueryWithPagination parse toSQL store f db).pageSize ∧
          (QueryWithPagination parse toSQL store f db).pageSize ≤ 500) := by
  have hq := paginationQuery_spec parse f db
  have hsp := pipeline_spec parse toSQL f db
  refine ⟨?_, ?_, ?_⟩
  · rintro ⟨e, he⟩
    unfold QueryWithPagination
    dsimp only
    rw [he]
    exact ⟨hq.1.2.1, hq.1.2.2.1⟩
  · intro h0
    unfold QueryWithPagination
    dsimp only
    rw [h0]
    dsimp only
    rw [if_pos (show (0 : Int) = 0 from rfl)]
    exact ⟨hq.1.2.1, hq.1.2.2.1⟩
  · intro n hn hn0
    unfold QueryWithPagination
    dsimp only
    rw [hn]
    dsimp only
    rw [if_neg hn0]
    cases hf : store.find ((f.PaginationQuery parse db).1.ApplySortAndPagination toSQL
        (f.PaginationQuery parse db).2).2 <;>
      dsimp only <;>
      exact ⟨hsp.2.1, hsp.2.2.1,
        by rw [hsp.2.1]; exact clampPage_ge_one f.Page,
        by rw [hsp.2.2.1]; exact (clampSize_bounds f.PageSize).1,
        by rw [hsp.2.2.1]; exact (clampSize_bounds f.PageSize).2⟩

/-- Witness for C2 (amended): all three paths at concrete stores and the
out-of-range filter (Page 0, PageSize 1000). -/
theorem pagination_clamp_paths_witness :
    (QueryWithPagination parse0 toSQL0 storeErr badPageFilter []).page = badPageFilter.Page ∧
      (QueryWithPagination parse0 toSQL0 store0 badPageFilter []).pageSize =
        badPageFilter.PageSize ∧
      (QueryWithPagination parse0 toSQL0 storeOk5 badPageFilter []).page =
        clampPage badPageFilter.Page ∧
      (QueryWithPagination parse0 toSQL0 storeOk5 badPageFilter []).pageSize =
        clampSize badPageFilter.PageSize :=
  ⟨((pagination_clamp_paths Unit parse0 toSQL0 storeErr badPageFilter []).1 ⟨"boom", rfl⟩).1,
   ((pagination_clamp_paths Unit parse0 toSQL0 store0 badPageFilter []).2.1 rfl).2,
   ((pagination_clamp_paths Unit parse0 toSQL0 storeOk5 badPageFilter []).2.2 5 rfl
      (by decide)).1,
   ((pagination_clamp_paths Unit parse0 toSQL0 storeOk5 badPageFilter []).2.2 5 rfl
      (by decide)).2.1⟩

/-- Membership form of the sortable check: a field passes exactly when it
is one of the three always-sortable names, or is a non-whitespace-only
member of the Sortable allow-list. -/
theorem isSortableL_iff (sortable : List String) (field : String) :
    isSortableL sortable field = true ↔
      field = "id" ∨ field = "created_at" ∨ field = "updated_at" ∨
        (trimSpace field ≠ "" ∧ field ∈ sortable) := by
  unfold isSortableL
  by_cases ht : trimSpace field = ""
  · have h1 : field ≠ "id" := fun hh => by subst hh; exact absurd ht (by decide)
    have h2 : field ≠ "created_at" := fun hh => by subst hh; exact absurd ht (by decide)
    have h3 : field ≠ "updated_at" := fun hh => by subst hh; exact absurd ht (by decide)
    simp [ht, h1, h2, h3]
  · by_cases hlen : sortable.length = 0
    · have hnil : sortable = [] := List.length_eq_zero.mp hlen
      subst hnil
      simp [ht]
      tauto
    · simp [ht, hlen]
      tauto

/-- A filter whose Sortable allow-list literally contains the empty
string, together with the sort token "-" whose stripped field is "". -/
def emptySortFieldFilter : Filter := { emptyFilter with Sortable := [""], «Sort» := "-" }

/-- C7 counterexample: with Sortable = [""] and sort directive "-", the
trimmed-and-stripped field "" IS a member of the Sortable list, yet
ApplySortAndPagination emits no ORDER clause for it (the
whitespace-only guard of isSortable rejects it), refuting the claimed
"if and only if". -/
theorem sort_token_emission_counterexample :
    (emptySortFieldFilter.ApplySortAndPagination toSQL0 []).2 = [.offset 0, .limit 10] ∧
      sortField "-" ∈ emptySortFieldFilter.Sortable := by
  constructor
  · rfl
  · show sortField "-" ∈ [""]
    decide

/-- C7 (amended): ApplySortAndPagination emits exactly the per-token
ORDER clauses of `orderClausesOf`, and a token's clause is emitted — one
clause, field then direction — if and only if its field (after trimming
whitespace and stripping one leading "-") is one of id, created_at,
updated_at, or is a member of the Sortable list that is not
whitespace-only; every failing token is dropped silently. -/
theorem sort_token_emission (toSQL : List Clause → String) (f : Filter) (db : List Clause)
    (tok : String) :
    (f.ApplySortAndPagination toSQL db).2 =
      db ++ sortClauses f.«Sort» f.Sortable ++
        [.offset ((clampPage f.Page - 1) * clampSize f.PageSize),
         .limit (clampSize f.PageSize)] ∧
      orderClausesOf f.Sortable tok =
        (if sortField tok = "id" ∨ sortField tok = "created_at" ∨ sortField tok = "updated_at"
            ∨ (trimSpace (sortField tok) ≠ "" ∧ sortField tok ∈ f.Sortable)
         then [.order (sortField tok ++ " " ++ sortDir tok)] else []) := by
  refine ⟨(applySortAndPagination_spec toSQL f db).1, ?_⟩
  by_cases he : trimSpace tok = ""
  · have hf : sortField tok = "" := by
      simp [sortField, he, hasDash]
    rw [hf]
    have hno : ¬("" = "id" ∨ "" = "created_at" ∨ "" = "updated_at" ∨
        (trimSpace "" ≠ "" ∧ "" ∈ f.Sortable)) := by
      rintro (h | h | h | ⟨hne, _⟩)
      · exact absurd h (by decide)
      · exact absurd h (by decide)
      · exact absurd h (by decide)
      · exact hne (by decide)
    rw [if_neg hno]
    simp [orderClausesOf, he]
  · simp only [orderClausesOf, he, if_false, reduceIte]
    by_cases hs : isSortableL f.Sortable (sortField tok) = true
    · rw [if_pos hs, if_pos ((isSortableL_iff _ _).mp hs)]
    · rw [if_neg hs, if_neg (fun hcon => hs ((isSortableL_iff _ _).mpr hcon))]

/-! ### Clause-group ordering (C4) -/

theorem complexClause_group (field op : String) (v : GoVal) :
    ∀ c ∈ complexClause field op v, c.group = 2 := by
  intro c hc
  unfold complexClause at hc
  split_ifs at hc <;>
    first
      | (simp at hc; subst hc; rfl)
      | simp at hc
      | (split at hc <;> simp at hc <;> subst hc <;> rfl)

theorem emittedComplex_group (field : String) (conds : List (String × GoVal)) :
    ∀ c ∈ emittedComplex field conds, c.group = 2 := by
  intro c hc
  unfold emittedComplex at hc
  rw [List.mem_flatMap] at hc
  obtain ⟨p, _, hcc⟩ := hc
  exact complexClause_group field p.1 p.2 c hcc

theorem shapeClauses_group (field : String) (v : GoVal) :
    ∀ c ∈ shapeClauses field v, c.group = 2 := by
  intro c hc
  cases v <;> simp [shapeClauses] at hc <;>
    first
      | (subst hc; rfl)
      | exact emittedComplex_group field _ c hc

theorem emittedConds_group (fl : List String) (m : List (String × GoVal)) :
    ∀ c ∈ emittedConds fl m, c.group = 2 := by
  induction m with
  | nil => intro c hc; simp [emittedConds] at hc
  | cons p rest ih =>
      obtain ⟨a, b⟩ := p
      intro c hc
      rw [emittedConds, List.mem_append] at hc
      rcases hc with hc | hc
      · split at hc
        · exact shapeClauses_group a b c hc
        · simp at hc
      · exact ih c hc

theorem orderClausesOf_group (sortable : List String) (tok : String) :
    ∀ c ∈ orderClausesOf sortable tok, c.group = 3 := by
  intro c hc
  simp only [orderClausesOf] at hc
  split_ifs at hc with h1 h2
  · simp at hc
  · rw [List.mem_singleton] at hc
    subst hc
    rfl
  · simp at hc

theorem sortClauses_group (sort : String) (sortable : List String) :
    ∀ c ∈ sortClauses sort sortable, c.group = 3 := by
  intro c hc
  unfold sortClauses at hc
  split at hc
  · simp at hc
  · rw [List.mem_flatMap] at hc
    obtain ⟨t, _, hcc⟩ := hc
    exact orderClausesOf_group sortable t c hcc

theorem unscopedClauses_group (f : Filter) : ∀ c ∈ unscopedClauses f, c.group = 0 := by
  intro c hc
  unfold unscopedClauses at hc
  split at hc <;> simp at hc
  subst hc; rfl

theorem joinClauses_group (f : Filter) : ∀ c ∈ joinClauses f, c.group = 1 := by
  intro c hc
  unfold joinClauses at hc
  rw [List.mem_map] at hc
  obtain ⟨j, _, hj⟩ := hc
  subst hj; rfl

theorem dynClauses_group (parse : String → Option (List (String × GoVal))) (f : Filter) :
    ∀ c ∈ dynClauses parse f, c.group = 2 := by
  intro c hc
  unfold dynClauses at hc
  split at hc
  · simp at hc
  · split at hc
    · exact emittedConds_group f.Filterable _ c hc
    · simp at hc

theorem pairwise_const_group {l : List Clause} (g : Nat) (h : ∀ c ∈ l, Clause.group c = g) :
    List.Pairwise (fun a b => Clause.group a ≤ Clause.group b) l := by
  induction l with
  | nil => exact List.Pairwise.nil
  | cons x xs ih =>
      refine List.Pairwise.cons (fun b hb => ?_)
        (ih fun c hc => h c (List.mem_cons_of_mem _ hc))
      rw [h x (List.mem_cons_self _ _), h b (List.mem_cons_of_mem _ hb)]

theorem pairwise_group_append {l1 l2 : List Clause} (g : Nat)
    (h1 : List.Pairwise (fun a b => Clause.group a ≤ Clause.group b) l1)
    (h2 : List.Pairwise (fun a b => Clause.group a ≤ Clause.group b) l2)
    (b1 : ∀ c ∈ l1, c.group ≤ g) (b2 : ∀ c ∈ l2, g ≤ c.group) :
    List.Pairwise (fun a b => Clause.group a ≤ Clause.group b) (l1 ++ l2) := by
  rw [List.pairwise_append]
  exact ⟨h1, h2, fun a ha b hb => le_trans (b1 a ha) (b2 b hb)⟩

theorem compiledPlan_pairwise (parse : String → Option (List (String × GoVal)))
    (f : Filter) :
    List.Pairwise (fun a b => Clause.group a ≤ Clause.group b) (compiledPlan parse f []) := by
  have hshape : compiledPlan parse f [] =
      unscopedClauses f ++ (joinClauses f ++ (emittedConds f.Filterable f.Filters ++
        (dynClauses parse f ++ (sortClauses f.«Sort» f.Sortable ++
        [.offset ((clampPage f.Page - 1) * clampSize f.PageSize),
         .limit (clampSize f.PageSize)])))) := by
    simp [compiledPlan, planClauses, List.append_assoc]
  rw [hshape]
  have tTail : List.Pairwise (fun a b => Clause.group a ≤ Clause.group b)
      ([.offset ((clampPage f.Page - 1) * clampSize f.PageSize),
        .limit (clampSize f.PageSize)] : List Clause) := by
    simp [List.pairwise_cons, Clause.group]
  have bTail : ∀ c ∈ ([.offset ((clampPage f.Page - 1) * clampSize f.PageSize),
      .limit (clampSize f.PageSize)] : List Clause), 3 ≤ c.group := by
    intro c hc
    simp at hc
    rcases hc with rfl | rfl <;> simp [Clause.group]
  have t1 := pairwise_group_append 3
    (pairwise_const_group 3 (sortClauses_group f.«Sort» f.Sortable)) tTail
    (fun c hc => le_of_eq (sortClauses_group f.«Sort» f.Sortable c hc)) bTail
  have b1 : ∀ c ∈ sortClauses f.«Sort» f.Sortable ++
      [Clause.offset ((clampPage f.Page - 1) * clampSize f.PageSize),
       Clause.limit (clampSize f.PageSize)], 2 ≤ c.group := by
    intro c hc
    rcases List.mem_append.mp hc with hc | hc
    · rw [sortClauses_group f.«Sort» f.Sortable c hc]; omega
    · exact le_trans (by omega) (bTail c hc)
  have t2 := pairwise_group_append 2
    (pairwise_const_group 2 (dynClauses_group parse f)) t1
    (fun c hc => le_of_eq (dynClauses_group parse f c hc)) b1
  have b2 : ∀ c ∈ dynClauses parse f ++ (sortClauses f.«Sort» f.Sortable ++
      [Clause.offset ((clampPage f.Page - 1) * clampSize f.PageSize),
       Clause.limit (clampSize f.PageSize)]), 2 ≤ c.group := by
    intro c hc
    rcases List.mem_append.mp hc with hc | hc
    · rw [dynClauses_group parse f c hc]
    · exact b1 c hc
  have t3 := pairwise_group_append 2
    (pairwise_const_group 2 (emittedConds_group f.Filterable f.Filters)) t2
    (fun c hc => le_of_eq (emittedConds_group f.Filterable f.Filters c hc)) b2
  have b3 : ∀ c ∈ emittedConds f.Filterable f.Filters ++ (dynClauses parse f ++
      (sortClauses f.«Sort» f.Sortable ++
       [Clause.offset ((clampPage f.Page - 1) * clampSize f.PageSize),
        Clause.limit (clampSize f.PageSize)])), 1 ≤ c.group := by
    intro c hc
    rcases List.mem_append.mp hc with hc | hc
    · rw [emittedConds_group f.Filterable f.Filters c hc]; omega
    · exact le_trans (by omega) (b2 c hc)
  have t4 := pairwise_group_append 1
    (pairwise_const_group 1 (joinClauses_group f)) t3
    (fun c hc => le_of_eq (joinClauses_group f c hc)) b3
  have b4 : ∀ c ∈ joinClauses f ++ (emittedConds f.Filterable f.Filters ++
      (dynClauses parse f ++ (sortClauses f.«Sort» f.Sortable ++
       [Clause.offset ((clampPage f.Page - 1) * clampSize f.PageSize),
        Clause.limit (clampSize f.PageSize)]))), 0 ≤ c.group := by
    intro c _
    exact Nat.zero_le _
  exact pairwise_group_append 0
    (pairwise_const_group 0 (unscopedClauses_group f)) t4
    (fun c hc => le_of_eq (unscopedClauses_group f c hc)) b4

/-- C4: the full compilation pipeline emits its clauses in the fixed
group order — the unscoped widening, then the join clauses in declared
order, then the predicate clauses (the static Filters before the parsed
dynamic-query conditions), then the order clauses, then offset and limit
— and consequently the clause group indices of the emitted plan are
monotone: no clause of a later group ever precedes one of an earlier
group. -/
theorem clause_groups_ordered (parse : String → Option (List (String × GoVal)))
    (toSQL : List Clause → String) (f : Filter) :
    ((f.PaginationQuery parse []).1.ApplySortAndPagination toSQL
        (f.PaginationQuery parse []).2).2 =
      unscopedClauses f ++ (joinClauses f ++ (emittedConds f.Filterable f.Filters ++
        (dynClauses parse f ++ (sortClauses f.«Sort» f.Sortable ++
        [.offset ((clampPage f.Page - 1) * clampSize f.PageSize),
         .limit (clampSize f.PageSize)])))) ∧
      List.Pairwise (fun a b => Clause.group a ≤ Clause.group b)
        ((f.PaginationQuery parse []).1.ApplySortAndPagination toSQL
          (f.PaginationQuery parse []).2).2 := by
  have h := (pipeline_spec parse toSQL f []).1
  constructor
  · rw [h]
    simp [compiledPlan, planClauses, List.append_assoc]
  · rw [h]
    exact compiledPlan_pairwise parse f

/-- C10: after the full compilation pipeline the filter's Page field is
the clamped page (hence at least 1) and its PageSize field the clamped
page size (hence in [1, 500]), written back in place; every other field
except the trace fields sqlRecords and finalSQL is unchanged. -/
theorem pipeline_frame (parse : String → Option (List (String × GoVal)))
    (toSQL : List Clause → String) (f : Filter) (db : List Clause) :
    1 ≤ ((f.PaginationQuery parse db).1.ApplySortAndPagination toSQL
        (f.PaginationQuery parse db).2).1.Page ∧
      1 ≤ ((f.PaginationQuery parse db).1.ApplySortAndPagination toSQL
        (f.PaginationQuery parse db).2).1.PageSize ∧
      ((f.PaginationQuery parse db).1.ApplySortAndPagination toSQL
        (f.PaginationQuery parse db).2).1.PageSize ≤ 500 ∧
      ((f.PaginationQuery parse db).1.ApplySortAndPagination toSQL
        (f.PaginationQuery parse db).2).1.Page = clampPage f.Page ∧
      ((f.PaginationQuery parse db).1.ApplySortAndPagination toSQL
        (f.PaginationQuery parse db).2).1.PageSize = clampSize f.PageSize ∧
      ((f.PaginationQuery parse db).1.ApplySortAndPagination toSQL
        (f.PaginationQuery parse db).2).1.Filterable = f.Filterable ∧
      ((f.PaginationQuery parse db).1.ApplySortAndPagination toSQL
        (f.PaginationQuery parse db).2).1.QueryStr = f.QueryStr ∧
      ((f.PaginationQuery parse db).1.ApplySortAndPagination toSQL
        (f.PaginationQuery parse db).2).1.Filters = f.Filters ∧
      ((f.PaginationQuery parse db).1.ApplySortAndPagination toSQL
        (f.PaginationQuery parse db).2).1.Sortable = f.Sortable ∧
      ((f.PaginationQuery parse db).1.ApplySortAndPagination toSQL
        (f.PaginationQuery parse db).2).1.«Sort» = f.«Sort» ∧
      ((f.PaginationQuery parse db).1.ApplySortAndPagination toSQL
        (f.PaginationQuery parse db).2).1.Unscoped = f.Unscoped ∧
      ((f.PaginationQuery parse db).1.ApplySortAndPagination toSQL
        (f.PaginationQuery parse db).2).1.Joins = f.Joins ∧
      ((f.PaginationQuery parse db).1.ApplySortAndPagination toSQL
        (f.PaginationQuery parse db).2).1.Debug = f.Debug := by
  obtain ⟨_, h2, h3, r1, r2, r3, r4, r5, r6, r7, r8⟩ := pipeline_spec parse toSQL f db
  exact ⟨by rw [h2]; exact clampPage_ge_one f.Page,
    by rw [h3]; exact (clampSize_bounds f.PageSize).1,
    by rw [h3]; exact (clampSize_bounds f.PageSize).2,
    h2, h3, r1, r2, r3, r4, r5, r6, r7, r8⟩

end CommonRepositorySdk
